import Mathlib

/-!
Verification development for the ups-snmp-ha polling coordinator
(custom_components/ups_snmp_ha/coordinator.py and snmp_helper.py).

Modelling conventions:
* Python floats are modelled as exact rationals (ℚ); Python `round(x, n)`
  is modelled as exact round-half-to-even on ℚ.
* Python dicts keyed by strings are modelled as association lists in
  insertion order; lookup takes the latest binding (last write wins),
  matching dict overwrite semantics.
* SNMP transport results are modelled as oracle functions
  (version, oid) -> Option String; the monotonic clock reads are
  explicit rational parameters.
* A Python exception escaping a modelled function is an `Except.error`.
-/

/-- Runtime values flowing through the coordinator: Python int, float,
bool and str.  Floats are modelled as exact rationals. -/
inductive Value where
  | int : ℤ → Value
  | num : ℚ → Value
  | bool : Bool → Value
  | str : String → Value
deriving DecidableEq, Repr

/-- The whitespace characters stripped by Python str.strip() (ASCII range). -/
def isPyWs (c : Char) : Bool :=
  c = ' ' || c = '\t' || c = '\n' || c = '\r' || c = '\x0b' || c = '\x0c'

/-- Python str.strip(): drop whitespace from both ends. -/
def pyStrip (s : String) : String :=
  ⟨((s.data.dropWhile isPyWs).reverse.dropWhile isPyWs).reverse⟩

def digitVal (c : Char) : ℕ := c.toNat - 48

def digitsToNat (ds : List Char) : ℕ :=
  ds.foldl (fun a c => 10 * a + digitVal c) 0

/-- Leftmost match of the regex group in re.search of an open paren,
one or more digits, and a close paren, returning the digits. -/
def findParenInt : List Char → Option ℕ
  | [] => none
  | '(' :: rest =>
    let ds := rest.takeWhile Char.isDigit
    if ds ≠ [] ∧ (rest.drop ds.length).head? = some ')' then
      some (digitsToNat ds)
    else
      findParenInt rest
  | _ :: rest => findParenInt rest

/-- Fullmatch of an optional minus sign followed by one or more digits. -/
def matchIntRe : List Char → Bool
  | '-' :: rest => rest ≠ [] && rest.all Char.isDigit
  | l => l ≠ [] && l.all Char.isDigit

/-- Value of a string matching matchIntRe. -/
def intReVal : List Char → ℤ
  | '-' :: rest => -(digitsToNat rest : ℤ)
  | l => (digitsToNat l : ℤ)

/-- Fullmatch of an optional minus sign, digits, a dot, digits;
on success the float value of the text (as an exact rational). -/
def matchFloatRe (l : List Char) : Option ℚ :=
  let (sgn, body) : ℚ × List Char :=
    match l with
    | '-' :: r => (-1, r)
    | _ => (1, l)
  let ds := body.takeWhile Char.isDigit
  if ds = [] then none
  else
    match body.drop ds.length with
    | '.' :: fs =>
      if fs ≠ [] ∧ fs.all Char.isDigit then
        some (sgn * ((digitsToNat ds : ℚ) + (digitsToNat fs : ℚ) / (10 : ℚ) ^ fs.length))
      else none
    | _ => none

/-- The method UpsSnmpCoordinator._coerce_snmp_value: normalize raw SNMP values.
None stays None; numbers (and bools, an int subtype in Python) are
returned unchanged; strings are stripped, empty resolves to none, a
parenthesized integer is extracted, otherwise full integer or decimal
numerals parse, otherwise the trimmed text is kept. -/
def coerce : Option Value → Option Value
  | none => none
  | some (Value.int n) => some (Value.int n)
  | some (Value.num q) => some (Value.num q)
  | some (Value.bool b) => some (Value.bool b)
  | some (Value.str s) =>
    let t := pyStrip s
    if t = "" then none
    else
      match findParenInt t.data with
      | some m => some (Value.int (m : ℤ))
      | none =>
        if matchIntRe t.data then some (Value.int (intReVal t.data))
        else
          match matchFloatRe t.data with
          | some q => some (Value.num q)
          | none => some (Value.str t)

/-- Python round() to an integer: round half to even. -/
def roundHalfEven (q : ℚ) : ℤ :=
  let f := ⌊q⌋
  let r := q - (f : ℚ)
  if r < 1 / 2 then f
  else if 1 / 2 < r then f + 1
  else if f % 2 = 0 then f else f + 1

/-- Python round(x, d): round to d decimal places, half to even. -/
def roundTo (d : ℕ) (q : ℚ) : ℚ :=
  (roundHalfEven (q * (10 : ℚ) ^ d) : ℚ) / (10 : ℚ) ^ d

/-- One entry of an OID table: the OID string, an optional scale and
the timeticks-to-minutes flag. -/
structure FieldSpec where
  oid : String
  scale : Option ℚ := none
  timeticksMinutes : Bool := false
deriving DecidableEq, Repr

/-- Unit application of _fetch_keys (lines 278-282 of coordinator.py):
a timeticks value is divided by 6000 and rounded to one decimal (a
TypeError escapes on a str); then, if a scale is present and the value
is numeric, multiply and round to two decimals. -/
def applyUnit (v : Value) (s : FieldSpec) : Except Unit Value :=
  let step1 : Except Unit Value :=
    if s.timeticksMinutes then
      match v with
      | Value.int n => Except.ok (Value.num (roundTo 1 ((n : ℚ) / 6000)))
      | Value.num q => Except.ok (Value.num (roundTo 1 (q / 6000)))
      | Value.bool b => Except.ok (Value.num (roundTo 1 ((if b then (1 : ℚ) else 0) / 6000)))
      | Value.str _ => Except.error ()
    else Except.ok v
  step1.bind fun v1 =>
    match s.scale with
    | some c =>
      match v1 with
      | Value.int n => Except.ok (Value.num (roundTo 2 ((n : ℚ) * c)))
      | Value.num q => Except.ok (Value.num (roundTo 2 (q * c)))
      | Value.bool b => Except.ok (Value.num (roundTo 2 ((if b then (1 : ℚ) else 0) * c)))
      | Value.str t => Except.ok (Value.str t)
    | none => Except.ok v1

/-- The two SNMP data dialects supported by the coordinator. -/
inductive Mib where
  | ups
  | apc
deriving DecidableEq, Repr

/-- The UPS_MIB_OIDS table from coordinator.py. -/
def upsMibOids : List (String × FieldSpec) := [
  ("manufacturer", ⟨"1.3.6.1.2.1.33.1.1.1.0", none, false⟩),
  ("model", ⟨"1.3.6.1.2.1.33.1.1.2.0", none, false⟩),
  ("firmware", ⟨"1.3.6.1.2.1.33.1.1.3.0", none, false⟩),
  ("name", ⟨"1.3.6.1.2.1.33.1.1.5.0", none, false⟩),
  ("battery_status", ⟨"1.3.6.1.2.1.33.1.2.1.0", none, false⟩),
  ("seconds_on_battery", ⟨"1.3.6.1.2.1.33.1.2.2.0", none, false⟩),
  ("runtime_remaining", ⟨"1.3.6.1.2.1.33.1.2.3.0", none, false⟩),
  ("battery_charge", ⟨"1.3.6.1.2.1.33.1.2.4.0", none, false⟩),
  ("battery_voltage", ⟨"1.3.6.1.2.1.33.1.2.5.0", some (1/10), false⟩),
  ("battery_temperature", ⟨"1.3.6.1.2.1.33.1.2.7.0", none, false⟩),
  ("input_line_count", ⟨"1.3.6.1.2.1.33.1.3.2.0", none, false⟩),
  ("input_frequency", ⟨"1.3.6.1.2.1.33.1.3.3.1.2.1", some (1/10), false⟩),
  ("input_voltage", ⟨"1.3.6.1.2.1.33.1.3.3.1.3.1", none, false⟩),
  ("input_current", ⟨"1.3.6.1.2.1.33.1.3.3.1.4.1", some (1/10), false⟩),
  ("input_power", ⟨"1.3.6.1.2.1.33.1.3.3.1.5.1", none, false⟩),
  ("output_source_raw", ⟨"1.3.6.1.2.1.33.1.4.1.0", none, false⟩),
  ("output_frequency", ⟨"1.3.6.1.2.1.33.1.4.2.0", some (1/10), false⟩),
  ("output_line_count", ⟨"1.3.6.1.2.1.33.1.4.3.0", none, false⟩),
  ("bypass_frequency", ⟨"1.3.6.1.2.1.33.1.5.1.0", some (1/10), false⟩),
  ("bypass_line_count", ⟨"1.3.6.1.2.1.33.1.5.2.0", none, false⟩),
  ("alarms_present", ⟨"1.3.6.1.2.1.33.1.6.1.0", none, false⟩)]

/-- The APC_MIB_OIDS table from coordinator.py. -/
def apcMibOids : List (String × FieldSpec) := [
  ("model", ⟨"1.3.6.1.4.1.318.1.1.1.1.1.1.0", none, false⟩),
  ("name", ⟨"1.3.6.1.4.1.318.1.1.1.1.1.2.0", none, false⟩),
  ("firmware", ⟨"1.3.6.1.4.1.318.1.1.1.1.2.1.0", none, false⟩),
  ("serial_number", ⟨"1.3.6.1.4.1.318.1.1.1.1.2.3.0", none, false⟩),
  ("battery_status", ⟨"1.3.6.1.4.1.318.1.1.1.2.1.1.0", none, false⟩),
  ("battery_charge", ⟨"1.3.6.1.4.1.318.1.1.1.2.2.1.0", none, false⟩),
  ("battery_temperature", ⟨"1.3.6.1.4.1.318.1.1.1.2.2.2.0", none, false⟩),
  ("runtime_remaining", ⟨"1.3.6.1.4.1.318.1.1.1.2.2.3.0", none, true⟩),
  ("output_source_raw", ⟨"1.3.6.1.4.1.318.1.1.1.4.1.1.0", none, false⟩),
  ("output_voltage", ⟨"1.3.6.1.4.1.318.1.1.1.4.2.1.0", none, false⟩),
  ("output_frequency", ⟨"1.3.6.1.4.1.318.1.1.1.4.2.2.0", none, false⟩),
  ("output_load", ⟨"1.3.6.1.4.1.318.1.1.1.4.2.3.0", none, false⟩),
  ("input_voltage", ⟨"1.3.6.1.4.1.318.1.1.1.3.2.1.0", none, false⟩),
  ("input_frequency", ⟨"1.3.6.1.4.1.318.1.1.1.3.2.4.0", none, false⟩)]

/-- The UPS_OUTPUT_SOURCE_MAP table. -/
def upsOutputSourceMap : List (ℤ × String) :=
  [(1, "other"), (2, "none"), (3, "normal"), (4, "bypass"), (5, "battery"),
   (6, "booster"), (7, "reducer")]

/-- The APC_OUTPUT_SOURCE_MAP table. -/
def apcOutputSourceMap : List (ℤ × String) :=
  [(1, "other"), (2, "normal"), (3, "battery"), (4, "bypass")]

/-- The BATTERY_STATUS_MAP table. -/
def batteryStatusMap : List (ℤ × String) :=
  [(1, "unknown"), (2, "normal"), (3, "low"), (4, "depleted")]

/-- A Python dict from semantic keys to values, as an association list
in insertion order. -/
abbrev Dict := List (String × Value)

/-- Dict lookup: the value of the latest binding of a key, as in a
Python dict where a later write overwrites an earlier one. -/
def dget (d : Dict) (k : String) : Option Value :=
  List.lookup k d.reverse

/-- The fast-cadence key set of _async_update_data_locked. -/
def fastKeysList : List String :=
  ["output_source_raw", "runtime_remaining", "seconds_on_battery",
   "battery_charge", "input_voltage"]

/-- The slow key set: all table keys minus the fast keys. -/
def slowKeysOf (oidMap : List (String × FieldSpec)) : List String :=
  (oidMap.map Prod.fst).filter (fun k => !(fastKeysList.contains k))

/-- The OIDs requested for a key set (keys missing from the table are
skipped, as in _fetch_keys). -/
def oidsForKeys (oidMap : List (String × FieldSpec)) (keys : List String) : List String :=
  keys.filterMap (fun k => (List.lookup k oidMap).map FieldSpec.oid)

/-- The normalization loop of _fetch_keys: for each key with a spec,
coerce the raw transport value, skip missing values, apply units, and
record the result under the semantic key. -/
def fetchLoop (oidMap : List (String × FieldSpec)) (raw : String → Option String) :
    List String → Except Unit Dict
  | [] => Except.ok []
  | key :: rest =>
    match List.lookup key oidMap with
    | none => fetchLoop oidMap raw rest
    | some spec =>
      match coerce ((raw spec.oid).map Value.str) with
      | none => fetchLoop oidMap raw rest
      | some v =>
        match applyUnit v spec with
        | Except.error e => Except.error e
        | Except.ok v1 => (fetchLoop oidMap raw rest).map (fun d => (key, v1) :: d)

/-- The method UpsSnmpCoordinator._fetch_keys: an empty OID list short-circuits to
the empty dict without a transport call; otherwise one batch query is
issued and normalized by fetchLoop. -/
def fetchKeys (oidMap : List (String × FieldSpec)) (keys : List String)
    (raw : String → Option String) : Except Unit Dict :=
  if (oidsForKeys oidMap keys).isEmpty then Except.ok []
  else fetchLoop oidMap raw keys

/-- Python int() applied to one of our runtime values.  A float
truncates toward zero; a string is stripped, then an optional sign and
digits (with single underscores between digits) are accepted. -/
def intTailOk : List Char → Bool
  | [] => true
  | ['_'] => false
  | '_' :: d :: rest => d.isDigit && intTailOk rest
  | c :: rest => c.isDigit && intTailOk rest

def pyIntDigits : List Char → Bool
  | [] => false
  | c :: rest => c.isDigit && intTailOk rest

def pyIntOfString (s : String) : Except Unit ℤ :=
  let t := (pyStrip s).data
  let sb : ℤ × List Char :=
    match t with
    | '+' :: r => (1, r)
    | '-' :: r => (-1, r)
    | _ => (1, t)
  if pyIntDigits sb.2 then
    Except.ok (sb.1 * (digitsToNat (sb.2.filter Char.isDigit) : ℤ))
  else Except.error ()

def pyInt : Value → Except Unit ℤ
  | Value.int n => Except.ok n
  | Value.bool b => Except.ok (if b then 1 else 0)
  | Value.num q => Except.ok (Int.tdiv q.num (q.den : ℤ))
  | Value.str s => pyIntOfString s

/-- The Python dict membership tests for the derivation code sets. -/
def normalValuesOf : Mib → List ℤ
  | Mib.apc => [2, 4]
  | Mib.ups => [3, 4]

def batteryValuesOf : Mib → List ℤ
  | Mib.apc => [3]
  | Mib.ups => [5]

def outputSourceMapOf : Mib → List (ℤ × String)
  | Mib.apc => apcOutputSourceMap
  | Mib.ups => upsOutputSourceMap

/-- The method UpsSnmpCoordinator._derive_states.  The battery_status decoding is
wrapped in try/except (TypeError, ValueError) and so always yields a
text; int(output_source_raw) is not guarded, so a ValueError raised
there escapes the function (modelled as Except.error). -/
def batteryPartOf (d : Dict) : Dict :=
  match dget d "battery_status" with
  | none => []
  | some v =>
    match pyInt v with
    | Except.ok n =>
      [("battery_status_text", Value.str ((List.lookup n batteryStatusMap).getD "unknown"))]
    | Except.error _ => [("battery_status_text", Value.str "unknown")]

def derive (p : Mib) (d : Dict) : Except Unit Dict :=
  let batteryPart : Dict := batteryPartOf d
  match dget d "output_source_raw" with
  | none => Except.ok batteryPart
  | some v =>
    match pyInt v with
    | Except.error _ => Except.error ()
    | Except.ok n =>
      let text := (List.lookup n (outputSourceMapOf p)).getD "unknown"
      Except.ok (batteryPart ++
        [("output_source", Value.str text),
         ("on_battery", Value.bool ((batteryValuesOf p).contains n)),
         ("ac_power", Value.bool ((normalValuesOf p).contains n)),
         ("on_bypass", Value.bool (text == "bypass"))])

/-- Coordinator-private state (PollState plus the owned snapshot and
metadata), as initialized by UpsSnmpCoordinator.__init__ and mutated by
the update cycle. -/
structure Coord where
  protocol : Option Mib
  snmpVersion : String
  lastSlowPoll : ℚ
  slowPollInterval : ℚ
  data : Dict
  failureCount : ℕ
  backoffUntil : ℚ
  manufacturer : Option Value := none
  hwModel : Option Value := none
  serialNumber : Option Value := none
  fwVersion : Option Value := none
deriving DecidableEq, Repr

/-- The state after __init__ for a configured slow poll interval
(floor 10 enforced by the coordinator). -/
def initCoord (slowPollInterval : ℚ) : Coord :=
  { protocol := none
    snmpVersion := "2c"
    lastSlowPoll := 0
    slowPollInterval := max 10 slowPollInterval
    data := []
    failureCount := 0
    backoffUntil := 0 }

/-- The transport calls one update cycle performs: the detection probes
as (version, oid) pairs, and the batch fetches as (version, oid list)
pairs. -/
structure Trace where
  probes : List (String × String)
  fetches : List (String × List String)
deriving DecidableEq, Repr

/-- The identifying OID probed by _try_protocol for each dialect. -/
def testOid : Mib → String
  | Mib.ups =>
    match List.lookup "output_source_raw" upsMibOids with
    | some s => s.oid
    | none => ""
  | Mib.apc =>
    match List.lookup "model" apcMibOids with
    | some s => s.oid
    | none => ""

/-- The probe of _try_protocol: fetch the identifying OID at a version
and test the value against None. -/
def tryProtocol (p : Mib) (v : String) (T : String → String → Option String) : Bool :=
  (T v (testOid p)).isSome

/-- The version loop of _detect_protocol: for each version try the UPS
dialect and then the APC dialect; the first success wins.  Returns the
winner (if any) and the probe calls made. -/
def detectGo (T : String → String → Option String) :
    List String → Option (Mib × String) × List (String × String)
  | [] => (none, [])
  | v :: rest =>
    if tryProtocol Mib.ups v T then (some (Mib.ups, v), [(v, testOid Mib.ups)])
    else if tryProtocol Mib.apc v T then
      (some (Mib.apc, v), [(v, testOid Mib.ups), (v, testOid Mib.apc)])
    else
      let r := detectGo T rest
      (r.1, (v, testOid Mib.ups) :: (v, testOid Mib.apc) :: r.2)

/-- The slow-poll gate of _async_update_data_locked. -/
def slowDue (st : Coord) (now : ℚ) : Bool :=
  decide (st.slowPollInterval ≤ now - st.lastSlowPoll) || decide (st.lastSlowPoll = 0)

/-- Errors a locked update cycle can raise. -/
inductive CycleErr where
  | typeErr
  | noData
deriving DecidableEq, Repr

/-- Errors refresh surfaces: an active backoff window (with the
remaining duration) or a failed cycle. -/
inductive RefreshErr where
  | backoff : ℚ → RefreshErr
  | failed : CycleErr → RefreshErr
deriving DecidableEq, Repr

instance {ε α : Type} [DecidableEq ε] [DecidableEq α] : DecidableEq (Except ε α) := fun x y =>
  match x, y with
  | Except.ok a, Except.ok b =>
    if h : a = b then isTrue (by rw [h]) else isFalse (by simp [h])
  | Except.error a, Except.error b =>
    if h : a = b then isTrue (by rw [h]) else isFalse (by simp [h])
  | Except.ok _, Except.error _ => isFalse (by simp)
  | Except.error _, Except.ok _ => isFalse (by simp)

structure LockedOut where
  res : Except CycleErr Dict
  st : Coord
  tr : Trace
deriving DecidableEq, Repr

structure RefreshOut where
  res : Except RefreshErr Dict
  st : Coord
  tr : Trace
deriving DecidableEq, Repr

/-- Truthiness of a Python value held in an optional attribute. -/
def isFalsy : Option Value → Bool
  | none => true
  | some (Value.str s) => s == ""
  | some (Value.int n) => n == 0
  | some (Value.num q) => q == 0
  | some (Value.bool b) => !b

/-- The method UpsSnmpCoordinator._update_metadata: sticky-latest metadata, with
the APC manufacturer fallback. -/
def applyMeta (st : Coord) (d : Dict) : Coord :=
  let m0 := dget d "manufacturer"
  let m1 := if isFalsy m0 && (st.protocol == some Mib.apc) then some (Value.str "APC") else m0
  { st with
    manufacturer := if isFalsy m1 then st.manufacturer else m1
    hwModel := if isFalsy (dget d "model") then st.hwModel else dget d "model"
    serialNumber := if isFalsy (dget d "serial_number") then st.serialNumber
                    else dget d "serial_number"
    fwVersion := if isFalsy (dget d "firmware") then st.fwVersion else dget d "firmware" }

/-- The merge of step 4: previous snapshot overlaid with slow results
overlaid with fast results (dict unpacking order of line 201). -/
def cycleMerge (prior slow fast : Dict) : Dict := prior ++ slow ++ fast

/-- The tail of _async_update_data_locked after both fetches: the
no-data check, the merge, state derivation and the metadata update. -/
def finishCycle (st2 : Coord) (slowD fastD : Dict) (tr : Trace) : LockedOut :=
  if fastD.isEmpty && slowD.isEmpty && st2.data.isEmpty then
    ⟨Except.error CycleErr.noData, st2, tr⟩
  else
    let merged := cycleMerge st2.data slowD fastD
    match derive (if st2.protocol == some Mib.apc then Mib.apc else Mib.ups) merged with
    | Except.error _ => ⟨Except.error CycleErr.typeErr, st2, tr⟩
    | Except.ok der =>
      let full := merged ++ der
      ⟨Except.ok full, applyMeta st2 full, tr⟩

/-- The method UpsSnmpCoordinator._async_update_data_locked: detect the protocol
if needed, fetch the fast key set, fetch the slow key set when due
(advancing the slow-poll timestamp only on a non-empty result), then
merge and derive. -/
def updateLocked (st : Coord) (now : ℚ) (T : String → String → Option String) : LockedOut :=
  let dp : Coord × List (String × String) :=
    match st.protocol with
    | some _ => (st, [])
    | none =>
      match detectGo T ["2c", "1"] with
      | (some (p, v), ps) => ({ st with protocol := some p, snmpVersion := v }, ps)
      | (none, ps) => ({ st with protocol := some Mib.ups }, ps)
  let st1 := dp.1
  let oidMap := if st1.protocol == some Mib.ups then upsMibOids else apcMibOids
  let fastOids := oidsForKeys oidMap fastKeysList
  let tr1 : Trace := ⟨dp.2, if fastOids.isEmpty then [] else [(st1.snmpVersion, fastOids)]⟩
  match fetchKeys oidMap fastKeysList (T st1.snmpVersion) with
  | Except.error _ => ⟨Except.error CycleErr.typeErr, st1, tr1⟩
  | Except.ok fastD =>
    if slowDue st1 now then
      let sKeys := slowKeysOf oidMap
      let slowOids := oidsForKeys oidMap sKeys
      let tr2 : Trace :=
        ⟨dp.2, tr1.fetches ++ (if slowOids.isEmpty then [] else [(st1.snmpVersion, slowOids)])⟩
      match fetchKeys oidMap sKeys (T st1.snmpVersion) with
      | Except.error _ => ⟨Except.error CycleErr.typeErr, st1, tr2⟩
      | Except.ok slowD =>
        let st2 := if slowD.isEmpty then st1 else { st1 with lastSlowPoll := now }
        finishCycle st2 slowD fastD tr2
    else
      finishCycle st1 [] fastD tr1

/-- The method UpsSnmpCoordinator._handle_update_failure at failure time t:
increment the failure count and set the backoff deadline to
t + min(60, 2 ^ count). -/
def handleFailure (st : Coord) (t : ℚ) : Coord :=
  let n := st.failureCount + 1
  { st with failureCount := n, backoffUntil := t + min 60 ((2 : ℚ) ^ n) }

/-- The method UpsSnmpCoordinator._async_update_data (refresh): reject immediately
while a backoff window is active, otherwise run the locked cycle; on
failure apply backoff (the failure clock read is the parameter tFail),
on success store the snapshot and clear the failure state. -/
def refresh (st : Coord) (now tFail : ℚ) (T : String → String → Option String) : RefreshOut :=
  if st.backoffUntil ≠ 0 ∧ now < st.backoffUntil then
    ⟨Except.error (RefreshErr.backoff (st.backoffUntil - now)), st, ⟨[], []⟩⟩
  else
    let o := updateLocked st now T
    match o.res with
    | Except.error e => ⟨Except.error (RefreshErr.failed e), handleFailure o.st tFail, o.tr⟩
    | Except.ok d => ⟨Except.ok d, { o.st with data := d, failureCount := 0, backoffUntil := 0 }, o.tr⟩

/-- Iterated refresh attempts at times t with failure-handling clock
reads tf, against a fixed transport. -/
def refreshSeq (st0 : Coord) (t tf : ℕ → ℚ) (T : String → String → Option String) : ℕ → Coord
  | 0 => st0
  | n + 1 => (refresh (refreshSeq st0 t tf T n) (t n) (tf n) T).st

/-- The outcome of one pysnmp GET for one OID, as seen inside
_async_get_snmp_value: a timeout, some other exception, an error
indication, a non-zero error status, an empty var-bind list, or one
var binding whose value is either a missing-value sentinel (Null,
NoSuchObject, NoSuchInstance, EndOfMibView) or printable text. -/
inductive SnmpResponse where
  | timeout
  | exn
  | errorIndication
  | errorStatus
  | noVarBinds
  | value : Bool → String → SnmpResponse
deriving DecidableEq, Repr

/-- The function snmp_helper._async_get_snmp_value: every failure mode resolves to
None; a present var binding is stringified and stripped, with the empty
string also resolving to None. -/
def getSingle : SnmpResponse → Option String
  | SnmpResponse.timeout => none
  | SnmpResponse.exn => none
  | SnmpResponse.errorIndication => none
  | SnmpResponse.errorStatus => none
  | SnmpResponse.noVarBinds => none
  | SnmpResponse.value missing t =>
    if missing then none
    else
      let s := pyStrip t
      if s = "" then none else some s

/-- The failure modes of one request: failed, timed out, or a
missing-value sentinel. -/
def respFails : SnmpResponse → Bool
  | SnmpResponse.timeout => true
  | SnmpResponse.exn => true
  | SnmpResponse.errorIndication => true
  | SnmpResponse.errorStatus => true
  | SnmpResponse.noVarBinds => true
  | SnmpResponse.value missing _ => missing

/-- The function snmp_helper._async_get_snmp_values: an empty OID list returns the
empty mapping without issuing requests; otherwise one request per OID
is gathered (exceptions already swallowed per request) and zipped back
into a mapping.  The second component is the list of requests issued. -/
def batchGet (oids : List String) (R : String → SnmpResponse) :
    List (String × Option String) × List String :=
  if oids.isEmpty then ([], [])
  else (oids.map (fun o => (o, getSingle (R o))), oids)

/-- The function snmp_helper.async_get_snmp_values: the empty list short-circuits
before the executor check; requesting on the executor without a Home
Assistant instance is the one input-contract RuntimeError. -/
def asyncGetSnmpValues (oids : List String) (R : String → SnmpResponse)
    (hassPresent useExecutor : Bool) :
    Except Unit (List (String × Option String) × List String) :=
  if oids.isEmpty then Except.ok ([], [])
  else if useExecutor && !hassPresent then Except.error ()
  else Except.ok (batchGet oids R)

/-! ### Helper lemmas -/

theorem lookup_append {α β : Type} [DecidableEq α] (l1 l2 : List (α × β)) (k : α) :
    List.lookup k (l1 ++ l2) = (List.lookup k l1).orElse (fun _ => List.lookup k l2) := by
  induction l1 with
  | nil => simp [Option.orElse]
  | cons h t ih =>
    rcases h with ⟨a, b⟩
    simp only [List.cons_append, List.lookup]
    cases hb : k == a with
    | true => simp [Option.orElse]
    | false => simpa [Option.orElse] using ih

theorem dget_append (a b : Dict) (k : String) :
    dget (a ++ b) k = (dget b k).orElse (fun _ => dget a k) := by
  simp only [dget, List.reverse_append]
  exact lookup_append b.reverse a.reverse k

theorem dget_nil (k : String) : dget [] k = none := rfl

theorem dget_cons (p : String × Value) (d : Dict) (k : String) :
    dget (p :: d) k = (dget d k).orElse (fun _ => if k = p.1 then some p.2 else none) := by
  have h0 : p :: d = [p] ++ d := rfl
  rw [h0, dget_append]
  congr 1
  funext u
  by_cases h : k = p.1
  · simp [dget, List.lookup, h]
  · simp [dget, List.lookup, beq_eq_false_iff_ne.mpr h, h]

/-- The OID table of a dialect (the branch on line 181). -/
def dialectOids : Mib → List (String × FieldSpec)
  | Mib.ups => upsMibOids
  | Mib.apc => apcMibOids

theorem dget_cycleMerge (P S F : Dict) (k : String) :
    dget (cycleMerge P S F) k =
      (dget F k).orElse (fun _ => (dget S k).orElse (fun _ => dget P k)) := by
  simp only [cycleMerge, dget_append]

theorem fetchLoop_missing (oidMap : List (String × FieldSpec)) (raw : String → Option String)
    (keys : List String) (key : String) (spec : FieldSpec) (D : Dict)
    (hspec : List.lookup key oidMap = some spec) (hraw : raw spec.oid = none)
    (hok : fetchLoop oidMap raw keys = Except.ok D) : dget D key = none := by
  induction keys generalizing D with
  | nil =>
    simp only [fetchLoop] at hok
    cases hok
    rfl
  | cons k rest ih =>
    simp only [fetchLoop] at hok
    by_cases hk : k = key
    · subst hk
      simp only [hspec, hraw, Option.map_none, coerce] at hok
      exact ih D hok
    · cases hl : List.lookup k oidMap with
      | none =>
        simp only [hl] at hok
        exact ih D hok
      | some s =>
        simp only [hl] at hok
        cases hc : coerce ((raw s.oid).map Value.str) with
        | none =>
          simp only [hc] at hok
          exact ih D hok
        | some v =>
          simp only [hc] at hok
          cases hu : applyUnit v s with
          | error e =>
            simp only [hu] at hok
            cases hok
          | ok v1 =>
            simp only [hu] at hok
            cases hrec : fetchLoop oidMap raw rest with
            | error e =>
              simp only [hrec, Except.map] at hok
              cases hok
            | ok D2 =>
              simp only [hrec, Except.map] at hok
              cases hok
              rw [dget_cons]
              have hne : ¬(key = k) := fun h => hk h.symm
              simp only [hne, if_false]
              simpa using ih D2 hrec

theorem fetchKeys_missing (oidMap : List (String × FieldSpec)) (raw : String → Option String)
    (keys : List String) (key : String) (spec : FieldSpec) (D : Dict)
    (hspec : List.lookup key oidMap = some spec) (hraw : raw spec.oid = none)
    (hok : fetchKeys oidMap keys raw = Except.ok D) : dget D key = none := by
  simp only [fetchKeys] at hok
  by_cases he : (oidsForKeys oidMap keys).isEmpty
  · rw [if_pos he] at hok
    cases hok
    rfl
  · rw [if_neg he] at hok
    exact fetchLoop_missing oidMap raw keys key spec D hspec hraw hok

theorem fetchLoop_allNone (oidMap : List (String × FieldSpec)) (keys : List String) :
    fetchLoop oidMap (fun _ => none) keys = Except.ok [] := by
  induction keys with
  | nil => rfl
  | cons k rest ih =>
    simp only [fetchLoop]
    cases List.lookup k oidMap with
    | none => exact ih
    | some s => simpa [coerce] using ih

theorem fetchKeys_allNone (oidMap : List (String × FieldSpec)) (keys : List String) :
    fetchKeys oidMap keys (fun _ => none) = Except.ok [] := by
  simp only [fetchKeys, fetchLoop_allNone]
  split <;> rfl

theorem finishCycle_ok (st2 : Coord) (slowD fastD : Dict) (tr : Trace) (D : Dict)
    (hguard : (fastD.isEmpty && slowD.isEmpty && st2.data.isEmpty) = false)
    (hd : derive (if st2.protocol == some Mib.apc then Mib.apc else Mib.ups)
        (cycleMerge st2.data slowD fastD) = Except.ok D) :
    (finishCycle st2 slowD fastD tr).res =
      Except.ok (cycleMerge st2.data slowD fastD ++ D) := by
  unfold finishCycle
  simp only [hguard, hd, Bool.false_eq_true, if_false]

/-- Claim C1: in a refresh cycle with prior snapshot P, slow result S
and fast result F, the pre-derivation snapshot is P overlaid with S
overlaid with F, last write wins per key with fast over slow over
prior; a key whose transport value is missing keeps its prior value
(or stays absent) and is never defaulted. -/
theorem c1 (st : Coord) (now : ℚ) (T : String → String → Option String) (p : Mib) (F S : Dict)
    (hp : st.protocol = some p)
    (hF : fetchKeys (dialectOids p) fastKeysList (T st.snmpVersion) = Except.ok F)
    (hS : (if slowDue st now then
        fetchKeys (dialectOids p) (slowKeysOf (dialectOids p)) (T st.snmpVersion)
      else Except.ok []) = Except.ok S) :
    (∀ k, dget (cycleMerge st.data S F) k =
        (dget F k).orElse (fun _ => (dget S k).orElse (fun _ => dget st.data k))) ∧
    (∀ key spec, List.lookup key (dialectOids p) = some spec →
        T st.snmpVersion spec.oid = none →
        dget (cycleMerge st.data S F) key = dget st.data key) ∧
    (∀ D, derive p (cycleMerge st.data S F) = Except.ok D →
        ¬(F = [] ∧ S = [] ∧ st.data = []) →
        (updateLocked st now T).res = Except.ok (cycleMerge st.data S F ++ D)) := by
  refine ⟨fun k => dget_cycleMerge _ _ _ k, ?_, ?_⟩
  · intro key spec hspec hraw
    have hF0 : dget F key = none := fetchKeys_missing _ _ _ _ _ _ hspec hraw hF
    have hS0 : dget S key = none := by
      cases hsd : slowDue st now with
      | true =>
        rw [if_pos hsd] at hS
        exact fetchKeys_missing _ _ _ _ _ _ hspec hraw hS
      | false =>
        rw [if_neg (by simp [hsd])] at hS
        cases hS
        rfl
    rw [dget_cycleMerge, hF0, hS0]
    rfl
  · intro D hder hne
    have hguard : ∀ st2 : Coord, st2.data = st.data →
        (F.isEmpty && S.isEmpty && st2.data.isEmpty) = false := by
      intro st2 hd2
      rw [Bool.eq_false_iff]
      intro hcontra
      simp only [Bool.and_eq_true, List.isEmpty_iff, hd2] at hcontra
      exact hne ⟨hcontra.1.1, hcontra.1.2, hcontra.2⟩
    have hdia : (if (some p == some Mib.ups : Bool) then upsMibOids else apcMibOids) =
        dialectOids p := by
      cases p <;> simp [dialectOids]
    have hdd : ∀ st2 : Coord, st2.protocol = some p →
        derive (if st2.protocol == some Mib.apc then Mib.apc else Mib.ups)
          (cycleMerge st2.data S F) = derive p (cycleMerge st2.data S F) := by
      intro st2 hp2
      cases p <;> simp [hp2]
    simp only [updateLocked, hp, hdia, hF]
    cases hsd : slowDue st now with
    | true =>
      rw [if_pos hsd] at hS
      simp only [hsd, if_true, hS]
      by_cases hse : S.isEmpty = true
      · rw [if_pos hse]
        exact finishCycle_ok _ S F _ D (hguard _ rfl) (by rw [hdd _ hp]; exact hder)
      · rw [if_neg hse]
        exact finishCycle_ok _ S F _ D (hguard _ rfl) (by rw [hdd _ rfl]; exact hder)
    | false =>
      rw [if_neg (by simp [hsd])] at hS
      cases hS
      simp only [hsd, Bool.false_eq_true, if_false]
      exact finishCycle_ok _ [] F _ D (hguard _ rfl) (by rw [hdd _ hp]; exact hder)

def c1wPrior : Dict := [("battery_charge", Value.int 50)]

def c1wFast : Dict := [("input_voltage", Value.int 230)]

def c1wT : String → String → Option String := fun _ oid =>
  if oid = "1.3.6.1.2.1.33.1.3.3.1.3.1" then some "230" else none

def c1wState : Coord :=
  { protocol := some Mib.ups
    snmpVersion := "2c"
    lastSlowPoll := 0
    slowPollInterval := 300
    data := c1wPrior
    failureCount := 0
    backoffUntil := 0 }

theorem c1_witness :
    (∀ k, dget (cycleMerge c1wPrior [] c1wFast) k =
        (dget c1wFast k).orElse (fun _ => (dget ([] : Dict) k).orElse (fun _ => dget c1wPrior k))) ∧
    (∀ key spec, List.lookup key (dialectOids Mib.ups) = some spec →
        c1wT "2c" spec.oid = none →
        dget (cycleMerge c1wPrior [] c1wFast) key = dget c1wPrior key) ∧
    (∀ D, derive Mib.ups (cycleMerge c1wPrior [] c1wFast) = Except.ok D →
        ¬(c1wFast = [] ∧ ([] : Dict) = [] ∧ c1wPrior = []) →
        (updateLocked c1wState 5 c1wT).res = Except.ok (cycleMerge c1wPrior [] c1wFast ++ D)) :=
  c1 c1wState 5 c1wT Mib.ups c1wFast [] rfl (by decide)
    (by
      rw [if_pos (by norm_num [slowDue, c1wState])]
      decide)

theorem finishCycle_preserves (st2 : Coord) (slowD fastD : Dict) (tr : Trace) :
    (finishCycle st2 slowD fastD tr).st.data = st2.data ∧
    (finishCycle st2 slowD fastD tr).st.failureCount = st2.failureCount ∧
    (finishCycle st2 slowD fastD tr).st.backoffUntil = st2.backoffUntil ∧
    (finishCycle st2 slowD fastD tr).st.slowPollInterval = st2.slowPollInterval := by
  unfold finishCycle applyMeta
  dsimp only
  repeat' split
  all_goals exact ⟨rfl, rfl, rfl, rfl⟩

set_option maxHeartbeats 800000 in
theorem updateLocked_preserves (st : Coord) (now : ℚ) (T : String → String → Option String) :
    (updateLocked st now T).st.data = st.data ∧
    (updateLocked st now T).st.failureCount = st.failureCount ∧
    (updateLocked st now T).st.backoffUntil = st.backoffUntil ∧
    (updateLocked st now T).st.slowPollInterval = st.slowPollInterval := by
  unfold updateLocked
  dsimp only
  repeat' split
  all_goals first
    | exact ⟨rfl, rfl, rfl, rfl⟩
    | exact finishCycle_preserves _ _ _ _

theorem refresh_fail_step (st : Coord) (now tFail : ℚ) (T : String → String → Option String)
    (hnb : ¬(st.backoffUntil ≠ 0 ∧ now < st.backoffUntil))
    (e : CycleErr) (he : (updateLocked st now T).res = Except.error e) :
    (refresh st now tFail T).st.failureCount = st.failureCount + 1 ∧
    (refresh st now tFail T).st.backoffUntil = tFail + min 60 ((2 : ℚ) ^ (st.failureCount + 1)) ∧
    (refresh st now tFail T).st.data = st.data := by
  have hp := updateLocked_preserves st now T
  unfold refresh
  rw [if_neg hnb]
  dsimp only
  refine ⟨?_, ?_, ?_⟩ <;> simp only [he, handleFailure] <;> simp [hp.1, hp.2.1]

theorem min_backoff_le (n : ℕ) : min (60 : ℚ) ((2 : ℚ) ^ n) ≤ 60 := min_le_left _ _

theorem refreshSeq_fail_inv (st0 : Coord) (t tf : ℕ → ℚ) (T : String → String → Option String)
    (h0 : st0.failureCount = 0) (hb0 : st0.backoffUntil = 0)
    (hsp : ∀ i, tf i + 60 ≤ t (i + 1))
    (hfail : ∀ i, ∃ e, (updateLocked (refreshSeq st0 t tf T i) (t i) T).res = Except.error e) :
    ∀ N, 1 ≤ N →
      (refreshSeq st0 t tf T N).failureCount = N ∧
      (refreshSeq st0 t tf T N).backoffUntil = tf (N - 1) + min 60 ((2 : ℚ) ^ N) := by
  intro N hN
  induction N with
  | zero => omega
  | succ n ih =>
    obtain ⟨e, he⟩ := hfail n
    cases Nat.eq_zero_or_pos n with
    | inl hz =>
      subst hz
      have hnb : ¬(st0.backoffUntil ≠ 0 ∧ t 0 < st0.backoffUntil) := by
        rw [hb0]
        simp
      have hstep := refresh_fail_step st0 (t 0) (tf 0) T hnb e he
      exact ⟨by rw [show refreshSeq st0 t tf T 1 = (refresh st0 (t 0) (tf 0) T).st from rfl,
          hstep.1, h0],
        by rw [show refreshSeq st0 t tf T 1 = (refresh st0 (t 0) (tf 0) T).st from rfl,
          hstep.2.1, h0]⟩
    | inr hpos =>
      have ihn := ih hpos
      have hble : (refreshSeq st0 t tf T n).backoffUntil ≤ t n := by
        rw [ihn.2]
        calc tf (n - 1) + min 60 ((2 : ℚ) ^ n) ≤ tf (n - 1) + 60 := by
              have := min_backoff_le n
              linarith
          _ ≤ t (n - 1 + 1) := hsp (n - 1)
          _ = t n := by rw [Nat.sub_add_cancel hpos]
      have hnb : ¬((refreshSeq st0 t tf T n).backoffUntil ≠ 0 ∧
          t n < (refreshSeq st0 t tf T n).backoffUntil) := by
        rintro ⟨h1, h2⟩
        linarith
      have hstep := refresh_fail_step (refreshSeq st0 t tf T n) (t n) (tf n) T hnb e he
      refine ⟨?_, ?_⟩
      · rw [show refreshSeq st0 t tf T (n + 1) = (refresh (refreshSeq st0 t tf T n) (t n) (tf n) T).st
          from rfl, hstep.1, ihn.1]
      · rw [show refreshSeq st0 t tf T (n + 1) = (refresh (refreshSeq st0 t tf T n) (t n) (tf n) T).st
          from rfl, hstep.2.1, ihn.1]
        simp

theorem updateLocked_tnone_fails (st : Coord) (now : ℚ) (hd : st.data = []) :
    (updateLocked st now (fun _ _ => none)).res = Except.error CycleErr.noData := by
  have hdet : detectGo (fun _ _ => none) ["2c", "1"] =
      (none, [("2c", testOid Mib.ups), ("2c", testOid Mib.apc),
              ("1", testOid Mib.ups), ("1", testOid Mib.apc)]) := by
    simp [detectGo, tryProtocol]
  unfold updateLocked
  cases hp : st.protocol with
  | some p =>
    simp only [hp, fetchKeys_allNone]
    split
    · simp [fetchKeys_allNone, finishCycle, hd]
    · simp [finishCycle, hd]
  | none =>
    simp only [hp, hdet, fetchKeys_allNone]
    split
    · simp [fetchKeys_allNone, finishCycle, hd]
    · simp [finishCycle, hd]

theorem refreshSeq_tnone_data (st0 : Coord) (t tf : ℕ → ℚ) (hd : st0.data = []) :
    ∀ n, (refreshSeq st0 t tf (fun _ _ => none) n).data = [] := by
  intro n
  induction n with
  | zero => exact hd
  | succ m ih =>
    show (refresh (refreshSeq st0 t tf (fun _ _ => none) m) (t m) (tf m) (fun _ _ => none)).st.data = []
    unfold refresh
    by_cases hb : ((refreshSeq st0 t tf (fun _ _ => none) m).backoffUntil ≠ 0 ∧
        t m < (refreshSeq st0 t tf (fun _ _ => none) m).backoffUntil)
    · rw [if_pos hb]
      exact ih
    · rw [if_neg hb]
      dsimp only
      have he := updateLocked_tnone_fails (refreshSeq st0 t tf (fun _ _ => none) m) (t m) ih
      simp only [he, handleFailure]
      simp [(updateLocked_preserves _ _ _).1, ih]

/-- Claim C2: after N consecutive failed cycles starting from a clean
failure state, the backoff deadline minus the N-th failure clock read
equals min(60, 2 ^ N) seconds; and a refresh issued while now is before
an active backoff deadline fails immediately with a transient error
carrying the remaining duration and performs no transport call. -/
theorem c2 :
    (∀ (st0 : Coord) (t tf : ℕ → ℚ) (T : String → String → Option String),
      st0.failureCount = 0 → st0.backoffUntil = 0 →
      (∀ i, tf i + 60 ≤ t (i + 1)) →
      (∀ i, ∃ e, (updateLocked (refreshSeq st0 t tf T i) (t i) T).res = Except.error e) →
      ∀ N, 1 ≤ N →
        (refreshSeq st0 t tf T N).failureCount = N ∧
        (refreshSeq st0 t tf T N).backoffUntil - tf (N - 1) = min 60 ((2 : ℚ) ^ N)) ∧
    (∀ (st : Coord) (now tFail : ℚ) (T : String → String → Option String),
      st.backoffUntil ≠ 0 → now < st.backoffUntil →
      refresh st now tFail T =
        ⟨Except.error (RefreshErr.backoff (st.backoffUntil - now)), st, ⟨[], []⟩⟩) := by
  constructor
  · intro st0 t tf T h0 hb0 hsp hfail N hN
    have h := refreshSeq_fail_inv st0 t tf T h0 hb0 hsp hfail N hN
    refine ⟨h.1, ?_⟩
    rw [h.2]
    ring
  · intro st now tFail T h1 h2
    unfold refresh
    rw [if_pos ⟨h1, h2⟩]

def c2wt : ℕ → ℚ := fun i => 1000 * i

def c2wtf : ℕ → ℚ := fun i => 1000 * i + 1

def c2wState : Coord :=
  { protocol := some Mib.ups
    snmpVersion := "2c"
    lastSlowPoll := 0
    slowPollInterval := 300
    data := []
    failureCount := 2
    backoffUntil := 50 }

theorem c2_witness :
    ((refreshSeq (initCoord 300) c2wt c2wtf (fun _ _ => none) 3).failureCount = 3 ∧
      (refreshSeq (initCoord 300) c2wt c2wtf (fun _ _ => none) 3).backoffUntil - c2wtf (3 - 1) =
        min 60 ((2 : ℚ) ^ 3)) ∧
    refresh c2wState 40 41 (fun _ _ => none) =
      ⟨Except.error (RefreshErr.backoff (c2wState.backoffUntil - 40)), c2wState, ⟨[], []⟩⟩ :=
  ⟨c2.1 (initCoord 300) c2wt c2wtf (fun _ _ => none) rfl rfl
    (by
      intro i
      simp only [c2wt, c2wtf]
      push_cast
      linarith)
    (fun i => ⟨CycleErr.noData,
      updateLocked_tnone_fails _ _ (refreshSeq_tnone_data (initCoord 300) c2wt c2wtf rfl i)⟩)
    3 (by norm_num),
   c2.2 c2wState 40 41 (fun _ _ => none) (by norm_num [c2wState]) (by norm_num [c2wState])⟩

theorem finishCycle_protocol (st2 : Coord) (slowD fastD : Dict) (tr : Trace) :
    (finishCycle st2 slowD fastD tr).st.protocol = st2.protocol ∧
    (finishCycle st2 slowD fastD tr).st.snmpVersion = st2.snmpVersion := by
  unfold finishCycle applyMeta
  try dsimp only
  repeat' split
  all_goals exact ⟨rfl, rfl⟩

theorem finishCycle_res_indep (st2 : Coord) (slowD fastD : Dict) (tra trb : Trace) :
    (finishCycle st2 slowD fastD tra).res = (finishCycle st2 slowD fastD trb).res := by
  by_cases hg : (fastD.isEmpty && slowD.isEmpty && st2.data.isEmpty) = true
  · simp [finishCycle, hg]
  · simp only [finishCycle, hg, if_false]
    cases hd : derive (if st2.protocol == some Mib.apc then Mib.apc else Mib.ups)
        (cycleMerge st2.data slowD fastD) <;> simp [hd]

theorem finishCycle_tr (st2 : Coord) (slowD fastD : Dict) (tr : Trace) :
    (finishCycle st2 slowD fastD tr).tr = tr := by
  unfold finishCycle applyMeta
  try dsimp only
  repeat' split
  all_goals rfl

set_option maxHeartbeats 800000 in
theorem updateLocked_ready_meta (st : Coord) (now : ℚ) (T : String → String → Option String)
    (p : Mib) (hp : st.protocol = some p) :
    (updateLocked st now T).st.protocol = some p ∧
    (updateLocked st now T).st.snmpVersion = st.snmpVersion ∧
    (updateLocked st now T).tr.probes = [] := by
  unfold updateLocked
  simp only [hp]
  repeat' split
  all_goals
    first
      | exact ⟨hp, rfl, rfl⟩
      | exact ⟨rfl, rfl, rfl⟩
      | exact ⟨(finishCycle_protocol _ _ _ _).1.trans hp, (finishCycle_protocol _ _ _ _).2,
          congrArg Trace.probes (finishCycle_tr _ _ _ _)⟩
      | exact ⟨(finishCycle_protocol _ _ _ _).1, (finishCycle_protocol _ _ _ _).2,
          congrArg Trace.probes (finishCycle_tr _ _ _ _)⟩

set_option maxHeartbeats 1600000 in
theorem updateLocked_detect_default (st : Coord) (now : ℚ) (T : String → String → Option String)
    (hp : st.protocol = none)
    (hdet : (detectGo T ["2c", "1"]).1 = none) :
    (updateLocked st now T).st.protocol = some Mib.ups ∧
    (updateLocked st now T).st.snmpVersion = st.snmpVersion ∧
    (updateLocked st now T).res = (updateLocked { st with protocol := some Mib.ups } now T).res := by
  rcases hdg : detectGo T ["2c", "1"] with ⟨r, ps⟩
  rw [hdg] at hdet
  dsimp only at hdet
  subst hdet
  have h1 : updateLocked st now T =
      (let st1 : Coord := { st with protocol := some Mib.ups }
       let oidMap := if st1.protocol == some Mib.ups then upsMibOids else apcMibOids
       let fastOids := oidsForKeys oidMap fastKeysList
       let tr1 : Trace := ⟨ps, if fastOids.isEmpty then [] else [(st1.snmpVersion, fastOids)]⟩
       match fetchKeys oidMap fastKeysList (T st1.snmpVersion) with
       | Except.error _ => ⟨Except.error CycleErr.typeErr, st1, tr1⟩
       | Except.ok fastD =>
         if slowDue st1 now then
           let sKeys := slowKeysOf oidMap
           let slowOids := oidsForKeys oidMap sKeys
           let tr2 : Trace :=
             ⟨ps, tr1.fetches ++ (if slowOids.isEmpty then [] else [(st1.snmpVersion, slowOids)])⟩
           match fetchKeys oidMap sKeys (T st1.snmpVersion) with
           | Except.error _ => ⟨Except.error CycleErr.typeErr, st1, tr2⟩
           | Except.ok slowD =>
             let st2 := if slowD.isEmpty then st1 else { st1 with lastSlowPoll := now }
             finishCycle st2 slowD fastD tr2
         else
           finishCycle st1 [] fastD tr1) := by
    unfold updateLocked
    rw [hp, hdg]
  rw [h1]
  dsimp only
  simp only [beq_self_eq_true, if_true]
  constructor
  · repeat' split
    all_goals first
      | rfl
      | exact (finishCycle_protocol _ _ _ _).1
  constructor
  · repeat' split
    all_goals first
      | rfl
      | exact (finishCycle_protocol _ _ _ _).2
  · conv_rhs => unfold updateLocked
    dsimp only
    simp only [beq_self_eq_true, if_true]
    cases hfk : fetchKeys upsMibOids fastKeysList (T st.snmpVersion) with
    | error e => rfl
    | ok fastD =>
      cases hsd : slowDue { st with protocol := some Mib.ups } now with
      | false => exact finishCycle_res_indep _ _ _ _ _
      | true =>
        simp only
        cases hsk : fetchKeys upsMibOids (slowKeysOf upsMibOids) (T st.snmpVersion) with
        | error e => rfl
        | ok slowD =>
          cases hsw : slowD.isEmpty <;> simp only [hsw] <;>
            exact finishCycle_res_indep _ _ _ _ _

set_option maxHeartbeats 1600000 in
theorem updateLocked_protocol (st : Coord) (now : ℚ) (T : String → String → Option String) :
    (updateLocked st now T).st.protocol =
      (match st.protocol with
       | some p => some p
       | none =>
         match (detectGo T ["2c", "1"]).1 with
         | some (p, _) => some p
         | none => some Mib.ups) := by
  cases hp : st.protocol with
  | some p => exact (updateLocked_ready_meta st now T p hp).1
  | none =>
    unfold updateLocked
    rcases hdg : detectGo T ["2c", "1"] with ⟨r, ps⟩
    simp only [hp, hdg]
    cases r with
    | some pv =>
      rcases pv with ⟨q, v⟩
      try dsimp only
      repeat' split
      all_goals first
        | rfl
        | exact (finishCycle_protocol _ _ _ _).1
    | none =>
      try dsimp only
      repeat' split
      all_goals first
        | rfl
        | exact (finishCycle_protocol _ _ _ _).1

/-- The detection probe order of _detect_protocol: for each version 2c
then 1, try the UPS identifying field, then the vendor one. -/
def probeOrder : List (Mib × String) :=
  [(Mib.ups, "2c"), (Mib.apc, "2c"), (Mib.ups, "1"), (Mib.apc, "1")]

/-- Claim C3: protocol detection probes (UPS, 2c), (APC, 2c), (UPS, 1),
(APC, 1) in order; the first combination whose identifying OID returns
a value wins; if all four fail, the dialect defaults to UPS with the
(initial) version 2c and the cycle continues as if UPS were preset; a
cached dialect is kept and no probes are issued on later cycles, and a
cycle always leaves the dialect set. -/
theorem c3 :
    (∀ (T : String → String → Option String) (p : Mib) (v : String),
      probeOrder.find? (fun pv => (T pv.2 (testOid pv.1)).isSome) = some (p, v) →
      (detectGo T ["2c", "1"]).1 = some (p, v)) ∧
    (∀ (T : String → String → Option String),
      (∀ pv ∈ probeOrder, T pv.2 (testOid pv.1) = none) →
      (detectGo T ["2c", "1"]).1 = none ∧
      (∀ (st : Coord) (now : ℚ), st.protocol = none → st.snmpVersion = "2c" →
        (updateLocked st now T).st.protocol = some Mib.ups ∧
        (updateLocked st now T).st.snmpVersion = "2c" ∧
        (updateLocked st now T).res =
          (updateLocked { st with protocol := some Mib.ups } now T).res)) ∧
    (∀ (st : Coord) (now : ℚ) (T : String → String → Option String) (p : Mib),
      st.protocol = some p →
      (updateLocked st now T).tr.probes = [] ∧
      (updateLocked st now T).st.protocol = some p ∧
      (updateLocked st now T).st.snmpVersion = st.snmpVersion) ∧
    (∀ (st : Coord) (now : ℚ) (T : String → String → Option String),
      (updateLocked st now T).st.protocol.isSome = true) := by
  refine ⟨?_, ?_, ?_, ?_⟩
  · intro T p v hfind
    cases h1 : (T "2c" (testOid Mib.ups)).isSome <;>
    cases h2 : (T "2c" (testOid Mib.apc)).isSome <;>
    cases h3 : (T "1" (testOid Mib.ups)).isSome <;>
    cases h4 : (T "1" (testOid Mib.apc)).isSome <;>
    simp_all [probeOrder, detectGo, tryProtocol, List.find?]
  · intro T hall
    have e1 : T "2c" (testOid Mib.ups) = none := hall (Mib.ups, "2c") (by simp [probeOrder])
    have e2 : T "2c" (testOid Mib.apc) = none := hall (Mib.apc, "2c") (by simp [probeOrder])
    have e3 : T "1" (testOid Mib.ups) = none := hall (Mib.ups, "1") (by simp [probeOrder])
    have e4 : T "1" (testOid Mib.apc) = none := hall (Mib.apc, "1") (by simp [probeOrder])
    have hdet : (detectGo T ["2c", "1"]).1 = none := by
      simp [detectGo, tryProtocol, e1, e2, e3, e4]
    refine ⟨hdet, ?_⟩
    intro st now hp hv
    have hdd := updateLocked_detect_default st now T hp hdet
    exact ⟨hdd.1, hdd.2.1.trans hv, hdd.2.2⟩
  · intro st now T p hp
    have h := updateLocked_ready_meta st now T p hp
    exact ⟨h.2.2, h.1, h.2.1⟩
  · intro st now T
    rw [updateLocked_protocol]
    cases hp : st.protocol with
    | some p => rfl
    | none =>
      cases hdg : (detectGo T ["2c", "1"]).1 with
      | some pv => cases pv; rfl
      | none => rfl

def c3wT : String → String → Option String := fun v oid =>
  if v = "2c" ∧ oid = testOid Mib.ups then some "3" else none

def c3wState : Coord :=
  { protocol := some Mib.ups
    snmpVersion := "2c"
    lastSlowPoll := 0
    slowPollInterval := 300
    data := []
    failureCount := 0
    backoffUntil := 0 }

theorem c3_witness :
    (detectGo c3wT ["2c", "1"]).1 = some (Mib.ups, "2c") ∧
    ((updateLocked c3wState 0 c3wT).tr.probes = [] ∧
      (updateLocked c3wState 0 c3wT).st.protocol = some Mib.ups ∧
      (updateLocked c3wState 0 c3wT).st.snmpVersion = c3wState.snmpVersion) :=
  ⟨c3.1 c3wT Mib.ups "2c" (by decide),
   c3.2.2.1 c3wState 0 c3wT Mib.ups rfl⟩

/-- Claim C4 counterexample: deriveStates raises on a snapshot whose
output_source_raw is text that does not parse as an integer, because
int(output_source_raw) is outside the try/except block; the claim that
deriveStates never raises for any mix of values is false. -/
theorem c4_counterexample :
    derive Mib.ups [("output_source_raw", Value.str "on")] = Except.error () := by
  simp [derive, batteryPartOf, dget, pyInt, pyIntOfString, pyStrip, isPyWs, pyIntDigits,
    List.lookup]

/-- Claim C4 (amended): deriveStates returns without raising for every
snapshot whose output_source_raw, when present, parses as an integer
(numeric values or integer text); an out-of-range or unparseable
battery_status yields battery_status_text unknown, and an
output_source_raw code outside the active dialect map yields
output_source unknown.  (A textual output_source_raw that does not
parse as an integer raises, failing the cycle: see the
counterexample.) -/
theorem c4_amended (p : Mib) (d : Dict)
    (hosr : ∀ v, dget d "output_source_raw" = some v → ∃ n, pyInt v = Except.ok n) :
    (∃ out, derive p d = Except.ok out) ∧
    (∀ out bv, derive p d = Except.ok out → dget d "battery_status" = some bv →
      (pyInt bv = Except.error () ∨
        ∃ n, pyInt bv = Except.ok n ∧ List.lookup n batteryStatusMap = none) →
      dget out "battery_status_text" = some (Value.str "unknown")) ∧
    (∀ out v n, derive p d = Except.ok out → dget d "output_source_raw" = some v →
      pyInt v = Except.ok n → List.lookup n (outputSourceMapOf p) = none →
      dget out "output_source" = some (Value.str "unknown")) := by
  refine ⟨?_, ?_, ?_⟩
  · unfold derive
    cases hosr0 : dget d "output_source_raw" with
    | none => exact ⟨_, rfl⟩
    | some v =>
      obtain ⟨n, hn⟩ := hosr v hosr0
      simp only [hn]
      exact ⟨_, rfl⟩
  · intro out bv hout hbs hbad
    have hbp : batteryPartOf d = [("battery_status_text", Value.str "unknown")] := by
      unfold batteryPartOf
      rw [hbs]
      rcases hbad with he | ⟨n, hn, hmap⟩
      · simp only [he]
      · simp only [hn, hmap]
        rfl
    unfold derive at hout
    cases hosr0 : dget d "output_source_raw" with
    | none =>
      simp only [hosr0] at hout
      cases hout
      rw [hbp]
      rfl
    | some w =>
      simp only [hosr0] at hout
      cases hpi : pyInt w with
      | error e =>
        simp only [hpi] at hout
        cases hout
      | ok n =>
        simp only [hpi] at hout
        cases hout
        rw [dget_append, hbp]
        rfl
  · intro out v n hout hosr0 hpi hmap
    unfold derive at hout
    simp only [hosr0, hpi] at hout
    cases hout
    rw [dget_append]
    simp only [hmap]
    rfl

def c4wD : Dict := [("battery_status", Value.int 9), ("output_source_raw", Value.int 99)]

theorem c4_witness :
    (∃ out, derive Mib.ups c4wD = Except.ok out) ∧
    (∀ out bv, derive Mib.ups c4wD = Except.ok out → dget c4wD "battery_status" = some bv →
      (pyInt bv = Except.error () ∨
        ∃ n, pyInt bv = Except.ok n ∧ List.lookup n batteryStatusMap = none) →
      dget out "battery_status_text" = some (Value.str "unknown")) ∧
    (∀ out v n, derive Mib.ups c4wD = Except.ok out → dget c4wD "output_source_raw" = some v →
      pyInt v = Except.ok n → List.lookup n (outputSourceMapOf Mib.ups) = none →
      dget out "output_source" = some (Value.str "unknown")) :=
  c4_amended Mib.ups c4wD
    (by
      intro v hv
      have h0 : dget c4wD "output_source_raw" = some (Value.int 99) := by decide
      rw [h0] at hv
      cases hv
      exact ⟨99, rfl⟩)

/-- Claim C5 counterexample: under a timeticks-to-minutes spec a
textual value does not pass through untouched; the division raises a
TypeError (modelled as an error), refuting the claim that unit
application leaves textual values untouched. -/
theorem c5_counterexample :
    applyUnit (Value.str "x") ⟨"o", none, true⟩ = Except.error () := by
  simp [applyUnit, Except.bind]

/-- Claim C5 (amended): timeticks decoding divides a numeric value by
6000 and rounds to 1 decimal but raises on a textual value; otherwise a
scale multiplies a numeric value and rounds to 2 decimals while textual
values pass through untouched; without either the value is unchanged;
raw 1234 at scale 0.1 gives 123.4 and timeticks raw 12000 gives 2.0. -/
theorem c5_amended :
    (∀ (s : FieldSpec) (n : ℤ), s.timeticksMinutes = true → s.scale = none →
      applyUnit (Value.int n) s = Except.ok (Value.num (roundTo 1 ((n : ℚ) / 6000)))) ∧
    (∀ (s : FieldSpec) (q : ℚ), s.timeticksMinutes = true → s.scale = none →
      applyUnit (Value.num q) s = Except.ok (Value.num (roundTo 1 (q / 6000)))) ∧
    (∀ (s : FieldSpec) (t : String), s.timeticksMinutes = true →
      applyUnit (Value.str t) s = Except.error ()) ∧
    (∀ (s : FieldSpec) (c : ℚ) (n : ℤ), s.timeticksMinutes = false → s.scale = some c →
      applyUnit (Value.int n) s = Except.ok (Value.num (roundTo 2 ((n : ℚ) * c)))) ∧
    (∀ (s : FieldSpec) (c q : ℚ), s.timeticksMinutes = false → s.scale = some c →
      applyUnit (Value.num q) s = Except.ok (Value.num (roundTo 2 (q * c)))) ∧
    (∀ (s : FieldSpec) (t : String), s.timeticksMinutes = false →
      applyUnit (Value.str t) s = Except.ok (Value.str t)) ∧
    (∀ (s : FieldSpec) (v : Value), s.timeticksMinutes = false → s.scale = none →
      applyUnit v s = Except.ok v) ∧
    applyUnit (Value.int 1234) ⟨"o", some (1/10), false⟩ = Except.ok (Value.num (617/5)) ∧
    applyUnit (Value.int 12000) ⟨"o", none, true⟩ = Except.ok (Value.num 2) := by
  refine ⟨?_, ?_, ?_, ?_, ?_, ?_, ?_, ?_, ?_⟩
  · intro s n htm hsc
    simp [applyUnit, htm, hsc, Except.bind]
  · intro s q htm hsc
    simp [applyUnit, htm, hsc, Except.bind]
  · intro s t htm
    simp [applyUnit, htm, Except.bind]
  · intro s c n htm hsc
    simp [applyUnit, htm, hsc, Except.bind]
  · intro s c q htm hsc
    simp [applyUnit, htm, hsc, Except.bind]
  · intro s t htm
    cases hsc : s.scale <;> simp [applyUnit, htm, hsc, Except.bind]
  · intro s v htm hsc
    simp [applyUnit, htm, hsc, Except.bind]
  · simp [applyUnit, Except.bind, roundTo, roundHalfEven]
    norm_num
  · simp [applyUnit, Except.bind, roundTo, roundHalfEven]
    norm_num

theorem c5_witness :
    applyUnit (Value.int 24000) ⟨"o", none, true⟩ =
      Except.ok (Value.num (roundTo 1 (((24000 : ℤ) : ℚ) / 6000))) ∧
    applyUnit (Value.str "ok") ⟨"o", some (1/10), false⟩ = Except.ok (Value.str "ok") :=
  ⟨c5_amended.1 ⟨"o", none, true⟩ 24000 rfl rfl,
   c5_amended.2.2.2.2.2.1 ⟨"o", some (1/10), false⟩ "ok" rfl⟩

/-- Claim C7: with the UPS dialect, output_source_raw 5 derives
on_battery true, ac_power false, on_bypass false and output_source
"battery"; with the vendor dialect, raw 3 derives the same values via
its own code map. -/
theorem c7 :
    derive Mib.ups [("output_source_raw", Value.int 5)] =
      Except.ok [("output_source", Value.str "battery"), ("on_battery", Value.bool true),
        ("ac_power", Value.bool false), ("on_bypass", Value.bool false)] ∧
    derive Mib.apc [("output_source_raw", Value.int 3)] =
      Except.ok [("output_source", Value.str "battery"), ("on_battery", Value.bool true),
        ("ac_power", Value.bool false), ("on_bypass", Value.bool false)] := by
  constructor <;>
    simp [derive, batteryPartOf, dget, List.lookup, pyInt, outputSourceMapOf,
      upsOutputSourceMap, apcOutputSourceMap, batteryValuesOf, normalValuesOf]

theorem dget_singleton (a : String) (x : Value) (k : String) :
    dget [(a, x)] k = if k = a then some x else none := by
  by_cases h : k = a
  · simp [dget, List.lookup, h]
  · simp [dget, List.lookup, h, beq_eq_false_iff_ne.mpr h]

/-- Claim C8: when output_source_raw is absent, deriveStates derives at
most battery_status_text; output_source, ac_power, on_battery and
on_bypass are all absent from the result, not present with defaults. -/
theorem c8 (p : Mib) (d : Dict) (hosr : dget d "output_source_raw" = none) :
    ∃ out, derive p d = Except.ok out ∧
      dget out "output_source" = none ∧ dget out "ac_power" = none ∧
      dget out "on_battery" = none ∧ dget out "on_bypass" = none ∧
      (∀ k v, dget out k = some v → k = "battery_status_text") := by
  refine ⟨batteryPartOf d, ?_, ?_⟩
  · unfold derive
    simp only [hosr]
  · have hshape : batteryPartOf d = [] ∨
        ∃ x, batteryPartOf d = [("battery_status_text", x)] := by
      unfold batteryPartOf
      cases hb : dget d "battery_status" with
      | none => simp [hb]
      | some v => cases hpi : pyInt v <;> simp [hb, hpi]
    rcases hshape with h0 | ⟨x, h1⟩
    · rw [h0]
      exact ⟨rfl, rfl, rfl, rfl, fun k v hk => by cases hk⟩
    · rw [h1]
      refine ⟨by rw [dget_singleton]; rfl, by rw [dget_singleton]; rfl,
        by rw [dget_singleton]; rfl, by rw [dget_singleton]; rfl, ?_⟩
      intro k v hk
      rw [dget_singleton] at hk
      by_cases hkb : k = "battery_status_text"
      · exact hkb
      · rw [if_neg hkb] at hk
        cases hk

def c8wD : Dict := [("battery_status", Value.int 2)]

theorem c8_witness :
    ∃ out, derive Mib.ups c8wD = Except.ok out ∧
      dget out "output_source" = none ∧ dget out "ac_power" = none ∧
      dget out "on_battery" = none ∧ dget out "on_bypass" = none ∧
      (∀ k v, dget out k = some v → k = "battery_status_text") :=
  c8 Mib.ups c8wD (by decide)

/-- Claim C6: coercion of raw transport values: none and
empty-after-trimming resolve to none, a parenthesized integer is
extracted, fully-integer or decimal numerals parse to int or float,
any other string is kept as trimmed text, and numeric values are
returned unchanged. -/
theorem c6 :
    coerce none = none ∧
    (∀ n : ℤ, coerce (some (Value.int n)) = some (Value.int n)) ∧
    (∀ q : ℚ, coerce (some (Value.num q)) = some (Value.num q)) ∧
    (∀ s : String, pyStrip s = "" → coerce (some (Value.str s)) = none) ∧
    (∀ (s : String) (m : ℕ), pyStrip s ≠ "" → findParenInt (pyStrip s).data = some m →
      coerce (some (Value.str s)) = some (Value.int (m : ℤ))) ∧
    (∀ s : String, pyStrip s ≠ "" → findParenInt (pyStrip s).data = none →
      matchIntRe (pyStrip s).data = true →
      coerce (some (Value.str s)) = some (Value.int (intReVal (pyStrip s).data))) ∧
    (∀ (s : String) (q : ℚ), pyStrip s ≠ "" → findParenInt (pyStrip s).data = none →
      matchIntRe (pyStrip s).data = false → matchFloatRe (pyStrip s).data = some q →
      coerce (some (Value.str s)) = some (Value.num q)) ∧
    (∀ s : String, pyStrip s ≠ "" → findParenInt (pyStrip s).data = none →
      matchIntRe (pyStrip s).data = false → matchFloatRe (pyStrip s).data = none →
      coerce (some (Value.str s)) = some (Value.str (pyStrip s))) ∧
    coerce (some (Value.str "Value (42)")) = some (Value.int 42) ∧
    coerce (some (Value.str "-17")) = some (Value.int (-17)) ∧
    coerce (some (Value.str "3.5")) = some (Value.num (7 / 2)) ∧
    coerce (some (Value.str "  hi  ")) = some (Value.str "hi") ∧
    coerce (some (Value.str "   ")) = none := by
  refine ⟨rfl, fun n => rfl, fun q => rfl, ?_, ?_, ?_, ?_, ?_, ?_, ?_, ?_, ?_, ?_⟩
  · intro s h
    simp [coerce, h]
  · intro s m hne hfp
    simp [coerce, hne, hfp]
  · intro s hne hfp hint
    simp [coerce, hne, hfp, hint]
  · intro s q hne hfp hint hflt
    simp [coerce, hne, hfp, hint, hflt]
  · intro s hne hfp hint hflt
    simp [coerce, hne, hfp, hint, hflt]
  · simp [coerce, pyStrip, isPyWs, findParenInt, digitsToNat, digitVal]
  · simp [coerce, pyStrip, isPyWs, findParenInt, matchIntRe, intReVal, digitsToNat, digitVal]
  · simp [coerce, pyStrip, isPyWs, findParenInt, matchIntRe, matchFloatRe, digitsToNat, digitVal]
    norm_num
  · simp [coerce, pyStrip, isPyWs, findParenInt, matchIntRe, matchFloatRe, digitsToNat, digitVal]
  · simp [coerce, pyStrip, isPyWs]

theorem c6_witness :
    coerce (some (Value.str "a(7)b")) = some (Value.int ((7 : ℕ) : ℤ)) :=
  c6.2.2.2.2.1 "a(7)b" 7 (by decide) (by decide)

theorem respFails_getSingle (r : SnmpResponse) (h : respFails r = true) : getSingle r = none := by
  cases r with
  | value missing t =>
    simp only [respFails] at h
    simp [getSingle, h]
  | timeout => rfl
  | exn => rfl
  | errorIndication => rfl
  | errorStatus => rfl
  | noVarBinds => rfl

theorem lookup_map_self (f : String → Option String) (oids : List String) (o : String)
    (ho : o ∈ oids) :
    List.lookup o (oids.map (fun x => (x, f x))) = some (f o) := by
  induction oids with
  | nil => cases ho
  | cons a rest ih =>
    by_cases h : o = a
    · subst h
      simp [List.lookup]
    · have ho2 : o ∈ rest := by
        rcases List.mem_cons.mp ho with h1 | h1
        · exact absurd h1 h
        · exact h1
      simp only [List.map_cons, List.lookup, beq_eq_false_iff_ne.mpr h]
      exact ih ho2

/-- Claim C9: the batch transport query returns one entry per requested
identifier (in order), each failed, timed-out or sentinel-valued
request resolving to no value; no per-request exception escapes the
boundary; the empty identifier list returns the empty mapping without
any network request, and the public wrapper with a host application
instance always returns. -/
theorem c9 (oids : List String) (R : String → SnmpResponse) (hnd : oids.Nodup) :
    ((batchGet oids R).1.map Prod.fst = oids ∧
      (∀ o ∈ oids, List.lookup o (batchGet oids R).1 = some (getSingle (R o))) ∧
      (∀ o ∈ oids, respFails (R o) = true → List.lookup o (batchGet oids R).1 = some none) ∧
      (batchGet oids R).2 = oids) ∧
    batchGet ([] : List String) R = ([], []) ∧
    (∀ useExecutor : Bool, ∃ res, asyncGetSnmpValues oids R true useExecutor = Except.ok res) ∧
    asyncGetSnmpValues [] R false true = Except.ok ([], []) := by
  have hbg : batchGet oids R = (oids.map (fun o => (o, getSingle (R o))), oids) := by
    cases oids with
    | nil => rfl
    | cons a rest => rfl
  have hmapfst : ∀ l : List String, (l.map (fun o => (o, getSingle (R o)))).map Prod.fst = l := by
    intro l
    induction l with
    | nil => rfl
    | cons a r ih => simp [ih]
  refine ⟨⟨?_, ?_, ?_, ?_⟩, rfl, ?_, rfl⟩
  · rw [hbg]
    exact hmapfst oids
  · intro o ho
    rw [hbg]
    exact lookup_map_self (fun x => getSingle (R x)) oids o ho
  · intro o ho hf
    rw [hbg]
    rw [lookup_map_self (fun x => getSingle (R x)) oids o ho, respFails_getSingle (R o) hf]
  · rw [hbg]
  · intro useExecutor
    unfold asyncGetSnmpValues
    by_cases he : oids.isEmpty = true
    · rw [if_pos he]
      exact ⟨_, rfl⟩
    · rw [if_neg he]
      simp only [Bool.not_true, Bool.and_false, Bool.false_eq_true, if_false]
      exact ⟨_, rfl⟩

theorem c9_witness :
    ((batchGet ["1.3", "1.4"] (fun _ => SnmpResponse.timeout)).1.map Prod.fst = ["1.3", "1.4"] ∧
      (∀ o ∈ ["1.3", "1.4"],
        List.lookup o (batchGet ["1.3", "1.4"] (fun _ => SnmpResponse.timeout)).1 =
          some (getSingle ((fun _ => SnmpResponse.timeout) o))) ∧
      (∀ o ∈ ["1.3", "1.4"], respFails ((fun _ => SnmpResponse.timeout) o) = true →
        List.lookup o (batchGet ["1.3", "1.4"] (fun _ => SnmpResponse.timeout)).1 = some none) ∧
      (batchGet ["1.3", "1.4"] (fun _ => SnmpResponse.timeout)).2 = ["1.3", "1.4"]) ∧
    batchGet ([] : List String) (fun _ => SnmpResponse.timeout) = ([], []) ∧
    (∀ useExecutor : Bool, ∃ res,
      asyncGetSnmpValues ["1.3", "1.4"] (fun _ => SnmpResponse.timeout) true useExecutor =
        Except.ok res) ∧
    asyncGetSnmpValues [] (fun _ => SnmpResponse.timeout) false true = Except.ok ([], []) :=
  c9 ["1.3", "1.4"] (fun _ => SnmpResponse.timeout) (by decide)

theorem finishCycle_lsp (st2 : Coord) (slowD fastD : Dict) (tr : Trace) :
    (finishCycle st2 slowD fastD tr).st.lastSlowPoll = st2.lastSlowPoll := by
  unfold finishCycle applyMeta
  try dsimp only
  repeat' split
  all_goals rfl

theorem slowDue_mono (a b : Coord) (now now2 : ℚ)
    (hl : b.lastSlowPoll = a.lastSlowPoll) (hi : b.slowPollInterval = a.slowPollInterval)
    (h : slowDue a now = true) (hle : now ≤ now2) : slowDue b now2 = true := by
  unfold slowDue at h ⊢
  rw [hl, hi]
  simp only [Bool.or_eq_true, decide_eq_true_eq] at h ⊢
  rcases h with h | h
  · exact Or.inl (by linarith)
  · exact Or.inr h

theorem dialectOids_if (p : Mib) :
    (if (some p == some Mib.ups : Bool) then upsMibOids else apcMibOids) = dialectOids p := by
  cases p <;> simp [dialectOids]

/-- Claim C10: the last-slow-poll timestamp advances only when the
slow fetch returns at least one value; a due slow fetch that returns
nothing leaves the timestamp unchanged so the slow set is due again on
the very next cycle; and when the slow fetch is not due the timestamp
is also unchanged. -/
theorem c10 :
    (∀ (st : Coord) (now now2 : ℚ) (T : String → String → Option String) (p : Mib),
      st.protocol = some p → slowDue st now = true →
      fetchKeys (dialectOids p) (slowKeysOf (dialectOids p)) (T st.snmpVersion) = Except.ok [] →
      (updateLocked st now T).st.lastSlowPoll = st.lastSlowPoll ∧
      (now ≤ now2 → slowDue (updateLocked st now T).st now2 = true)) ∧
    (∀ (st : Coord) (now : ℚ) (T : String → String → Option String) (p : Mib) (F D : Dict),
      st.protocol = some p → slowDue st now = true →
      fetchKeys (dialectOids p) fastKeysList (T st.snmpVersion) = Except.ok F →
      fetchKeys (dialectOids p) (slowKeysOf (dialectOids p)) (T st.snmpVersion) = Except.ok D →
      D ≠ [] →
      (updateLocked st now T).st.lastSlowPoll = now) ∧
    (∀ (st : Coord) (now : ℚ) (T : String → String → Option String),
      slowDue st now = false →
      (updateLocked st now T).st.lastSlowPoll = st.lastSlowPoll) := by
  refine ⟨?_, ?_, ?_⟩
  · intro st now now2 T p hp hsd hslow
    have hlsp : (updateLocked st now T).st.lastSlowPoll = st.lastSlowPoll := by
      unfold updateLocked
      simp only [hp, dialectOids_if]
      cases hfk : fetchKeys (dialectOids p) fastKeysList (T st.snmpVersion) with
      | error e => rfl
      | ok F =>
        simp only [hsd, if_true, hslow]
        exact finishCycle_lsp _ _ _ _
    refine ⟨hlsp, fun hle => ?_⟩
    exact slowDue_mono st (updateLocked st now T).st now now2 hlsp
      (updateLocked_preserves st now T).2.2.2 hsd hle
  · intro st now T p F D hp hsd hF hD hne
    have hDe : D.isEmpty = false := by
      cases D with
      | nil => exact absurd rfl hne
      | cons a r => rfl
    unfold updateLocked
    simp only [hp, dialectOids_if, hF, hsd, if_true, hD, hDe, Bool.false_eq_true, if_false]
    exact finishCycle_lsp _ _ _ _
  · intro st now T hsd
    unfold updateLocked
    cases hp : st.protocol with
    | some p =>
      simp only [hp]
      cases hfk : fetchKeys (if (some p == some Mib.ups : Bool) then upsMibOids else apcMibOids)
          fastKeysList (T st.snmpVersion) with
      | error e => rfl
      | ok F =>
        simp only [hfk, hsd, Bool.false_eq_true, if_false]
        exact finishCycle_lsp _ _ _ _
    | none =>
      rcases hdg : detectGo T ["2c", "1"] with ⟨r, ps⟩
      simp only [hp, hdg]
      cases r with
      | some pv =>
        rcases pv with ⟨q, v⟩
        have hsd2 : slowDue { st with protocol := some q, snmpVersion := v } now = false := hsd
        cases hfk : fetchKeys
            (if (({ st with protocol := some q, snmpVersion := v } : Coord).protocol ==
              some Mib.ups : Bool) then upsMibOids else apcMibOids)
            fastKeysList (T v) with
        | error e => simp only [hfk]
        | ok F =>
          simp only [hfk, hsd2, Bool.false_eq_true, if_false]
          exact finishCycle_lsp _ _ _ _
      | none =>
        have hsd2 : slowDue { st with protocol := some Mib.ups } now = false := hsd
        cases hfk : fetchKeys
            (if (({ st with protocol := some Mib.ups } : Coord).protocol ==
              some Mib.ups : Bool) then upsMibOids else apcMibOids)
            fastKeysList (T st.snmpVersion) with
        | error e => simp only [hfk]
        | ok F =>
          simp only [hfk, hsd2, Bool.false_eq_true, if_false]
          exact finishCycle_lsp _ _ _ _

def c10wState : Coord :=
  { protocol := some Mib.ups
    snmpVersion := "2c"
    lastSlowPoll := 0
    slowPollInterval := 300
    data := [("battery_charge", Value.int 50)]
    failureCount := 0
    backoffUntil := 0 }

theorem c10_witness :
    (updateLocked c10wState 5 (fun _ _ => none)).st.lastSlowPoll = c10wState.lastSlowPoll ∧
    ((5 : ℚ) ≤ 7 → slowDue (updateLocked c10wState 5 (fun _ _ => none)).st 7 = true) :=
  c10.1 c10wState 5 7 (fun _ _ => none) Mib.ups rfl
    (by norm_num [slowDue, c10wState]) (fetchKeys_allNone _ _)
